import Mathlib

set_option autoImplicit false

/-!
Verification of the CORS, JWT and RequireHeader middlewares of the
goa middleware repository.  The Go functions are embedded shallowly:
HTTP header maps become association lists from canonical header names to
value lists, handlers become pure functions returning the header state at
the moment the next handler in the chain is invoked, and the external
collaborators (compiled origin patterns, the JWT token library, the HTTP
status-text table) become function parameters.
-/

/-- Go net/http represents a header map (http.Header, url.Values) as a map
from canonical names to lists of values.  We embed it as an association
list; lookup returns the first entry with the given key, which agrees with
the Go map because parsed requests never hold two entries for one
canonical key. -/
abbrev Header := List (String × List String)

/-- Go map indexing h[k]: the value slice stored under k, nil (here the
empty list) when the key is absent. -/
def hIndex (h : Header) (k : String) : List String :=
  (h.lookup k).getD []

/-- Go http.Header.Get / textproto.MIMEHeader.Get: the first value stored
under the key, or the empty string when the key is absent or has no
values. -/
def hGetFirst (h : Header) (k : String) : String :=
  match h.lookup k with
  | some (v :: _) => v
  | _ => ""

/-- Go map assignment h[k] = vs: replaces whatever was stored under k. -/
def hAssign (h : Header) (k : String) (vs : List String) : Header :=
  (k, vs) :: h.filter (fun p => p.1 != k)

/-- Go http.Header.Set: stores the single value v under k, replacing any
existing values. -/
def hSet (h : Header) (k v : String) : Header :=
  hAssign h k [v]

/-- Character-level split used to embed Go strings.Split with a
one-character separator: acc accumulates the current field in reverse. -/
def splitOnCharAux (sep : Char) : List Char → List Char → List String
  | [], acc => [⟨acc.reverse⟩]
  | c :: cs, acc =>
    if c = sep then ⟨acc.reverse⟩ :: splitOnCharAux sep cs []
    else splitOnCharAux sep cs (c :: acc)

/-- Go strings.Split(s, sep) for a one-character separator: the fields of
s around every occurrence of sep; the empty string yields one empty
field. -/
def splitOnChar (sep : Char) (s : String) : List String :=
  splitOnCharAux sep s.data []

/-- Drops the leading whitespace characters of a character list. -/
def trimLeftChars : List Char → List Char
  | [] => []
  | c :: cs => if c.isWhitespace then trimLeftChars cs else c :: cs

/-- Go strings.TrimSpace: removes leading and trailing whitespace (the
ASCII whitespace characters; the Unicode space classes of unicode.IsSpace
beyond them do not occur in header values). -/
def strTrim (s : String) : String :=
  ⟨trimLeftChars ((trimLeftChars s.data.reverse).reverse)⟩

/-- Go strings.ToUpper, on the ASCII range (HTTP method names are
ASCII). -/
def strToUpper (s : String) : String :=
  ⟨s.data.map Char.toUpper⟩

/-- Go strings.ToLower, on the ASCII range. -/
def strToLower (s : String) : String :=
  ⟨s.data.map Char.toLower⟩

/-- Character-level prefix test. -/
def isPrefixChars : List Char → List Char → Bool
  | [], _ => true
  | _ :: _, [] => false
  | a :: as, b :: bs => a = b && isPrefixChars as bs

/-- Go strings.HasPrefix(s, p): p is a prefix of s. -/
def hasPrefixStr (s p : String) : Bool :=
  isPrefixChars p.data s.data

/-- The part of an incoming http.Request that the CORS middleware reads:
the method, the URL path and the header map.  The goa context passed to a
guard predicate is identified with the request, since goa.Request recovers
the request from it. -/
structure CORSRequest where
  method : String
  path : String
  header : Header

/-- The cors.ResourceDefinition struct as used by cors/middleware.go.
Origin is the exact origin string (empty when the rule instead carries a
pattern); OriginRegexp embeds MatchString of the compiled pattern as a
Boolean function; IsPathPref embeds the Go field named IsPathPrefix
(renamed here); Check is the optional guard predicate over the goa
context. -/
structure ResourceDefinition where
  Origin : String
  OriginRegexp : String → Bool
  Path : String
  IsPathPref : Bool
  Headers : List String
  Methods : List String
  Expose : List String
  MaxAge : Int
  Credentials : Bool
  Vary : List String
  Check : Option (CORSRequest → Bool)

/-- A cors.Specification is the configured, ordered list of resource
rules. -/
abbrev Specification := List ResourceDefinition

def acAllowCredentials : String := "Access-Control-Allow-Credentials"

def acAllowHeaders : String := "Access-Control-Allow-Headers"

def acAllowMethods : String := "Access-Control-Allow-Methods"

def acAllowOrigin : String := "Access-Control-Allow-Origin"

def acExposeHeaders : String := "Access-Control-Expose-Headers"

def acMaxAge : String := "Access-Control-Max-Age"

def acRequestMethod : String := "Access-Control-Request-Method"

def acRequestHeaders : String := "Access-Control-Request-Headers"

/-- cors.(*ResourceDefinition).OriginAllowed: an exact origin matches by
equality or as the wildcard; a rule with no exact origin consults its
compiled pattern. -/
def ResourceDefinition.OriginAllowed (res : ResourceDefinition) (origin : String) : Bool :=
  if res.Origin != "" then res.Origin == "*" || res.Origin == origin
  else res.OriginRegexp origin

/-- cors.(*ResourceDefinition).PathMatches: prefix match for prefix rules
(strings.HasPrefix(path, res.Path)), exact equality otherwise. -/
def ResourceDefinition.PathMatches (res : ResourceDefinition) (path : String) : Bool :=
  if res.IsPathPref then hasPrefixStr path res.Path
  else path == res.Path

/-- cors.Specification.RequestResource: linear scan of the rules in
configured order; the first rule whose origin and path match and whose
guard (when present) accepts the context is returned, and the scan goes on
past a rule whose guard rejects. -/
def RequestResource (v : Specification) (ctx : CORSRequest) (origin : String) :
    Option ResourceDefinition :=
  match v with
  | [] => none
  | res :: rest =>
    if res.OriginAllowed origin && res.PathMatches ctx.path then
      match res.Check with
      | none => some res
      | some c => if c ctx then some res else RequestResource rest ctx origin
    else RequestResource rest ctx origin

/-- cors.Specification.PathResource: linear scan returning the first rule
whose path matches the given path (prefix or exact according to the
rule). -/
def PathResource (v : Specification) (path : String) : Option ResourceDefinition :=
  match v with
  | [] => none
  | r :: rest =>
    if r.IsPathPref then
      if hasPrefixStr path r.Path then some r else PathResource rest path
    else if r.Path == path then some r else PathResource rest path

/-- cors.(*ResourceDefinition).FillHeaders: writes the allow-origin and
allow-methods headers unconditionally, and the expose-headers, max-age and
allow-credentials headers under their respective conditions.
strconv.Itoa becomes toString on Int. -/
def FillHeaders (res : ResourceDefinition) (origin : String) (dest : Header) : Header :=
  let d1 := hSet dest acAllowOrigin origin
  let d2 := hSet d1 acAllowMethods (String.intercalate ", " res.Methods)
  let d3 := if res.Expose.length > 0 then
      hSet d2 acExposeHeaders (String.intercalate ", " res.Expose)
    else d2
  let d4 := if res.MaxAge > 0 then hSet d3 acMaxAge (toString res.MaxAge) else d3
  if res.Credentials then hSet d4 acAllowCredentials "true" else d4

/-- The splat loop of cors.Middleware: every raw value of the
Access-Control-Request-Headers header is split on commas and each piece is
trimmed of surrounding whitespace. -/
def splitTrimAll : List String → List String
  | [] => []
  | h :: t => (splitOnChar ',' h).map strTrim ++ splitTrimAll t

/-- The requested-header acceptance loop of cors.Middleware, with the ok
flag threaded exactly as in the source: ok is declared once outside the
outer loop, set when some allowed entry equals the current requested
header or is the wildcard, and the loop breaks early when ok is still
false after an iteration.  The flag is never reset between iterations. -/
def corsOkLoop (allowed : List String) : List String → Bool → Bool
  | [], ok => ok
  | h :: t, ok =>
    let ok2 := ok || allowed.any (fun h2 => h2 == "*" || h == h2)
    if !ok2 then ok2 else corsOkLoop allowed t ok2

/-- The effective origin of a request in cors.Middleware: the Origin
header, falling back to X-Origin when Origin is empty. -/
def effOrigin (h : Header) : String :=
  let origin := hGetFirst h "Origin"
  if origin == "" then hGetFirst h "X-Origin" else origin

/-- cors.Middleware, one request through the wrapped handler: returns the
response header map (first component) and the request header map (second
component) as they stand at the moment the next handler is invoked; the
middleware always invokes the next handler.  The goto targets of the
source become the branches of the intermediate state s below: reaching
handleRequest early leaves s with the matched rule (when any), the
originHeader variable and the untouched response headers. -/
def corsMiddleware (spec : Specification) (req : CORSRequest) (rw : Header) :
    Header × Header :=
  let header := req.header
  let origin := effOrigin header
  let s : Option ResourceDefinition × String × Header :=
    if origin != "" then
      match RequestResource spec req origin with
      | none => (none, origin, rw)
      | some res =>
        let acMethod := strToUpper (hGetFirst header acRequestMethod)
        if req.method != "OPTIONS" || acMethod == "" then (some res, origin, rw)
        else if !(res.Methods.contains acMethod) then (some res, origin, rw)
        else
          let hdrs := splitTrimAll (hIndex header acRequestHeaders)
          if hdrs.length > 0 && !(corsOkLoop res.Headers hdrs false) then
            (some res, origin, rw)
          else
            let originHeader := if res.Origin == "*" && !res.Credentials then "*" else origin
            (some res, originHeader, hSet rw acAllowHeaders (String.intercalate ", " hdrs))
    else (none, "", rw)
  match s with
  | (resOpt, originHeader, rw1) =>
    let p : Option ResourceDefinition × Header :=
      match resOpt with
      | some res => (some res, FillHeaders res originHeader rw1)
      | none => (PathResource spec req.path, rw1)
    match p with
    | (resOpt2, rw2) =>
      let reqHeader2 :=
        match resOpt2 with
        | some res =>
          let v := hIndex header "Vary" ++ (if res.Vary.length > 0 then res.Vary else ["Origin"])
          hAssign header "Vary" v
        | none => header
      (rw2, reqHeader2)
theorem lookup_filter_ne (h : Header) (k k2 : String) (hne : k2 ≠ k) :
    (h.filter (fun p => p.1 != k)).lookup k2 = h.lookup k2 := by
  induction h with
  | nil => rfl
  | cons p t ih =>
    rcases p with ⟨k1, v1⟩
    by_cases hp : k1 = k
    · subst hp
      have h1 : (k2 == k1) = false := beq_eq_false_iff_ne.mpr hne
      simp [List.filter_cons, List.lookup, h1, ih]
    · have h2 : (k1 != k) = true := bne_iff_ne.mpr hp
      by_cases hq : k2 = k1
      · subst hq; simp [List.filter_cons, h2, List.lookup]
      · have h3 : (k2 == k1) = false := beq_eq_false_iff_ne.mpr hq
        simp [List.filter_cons, h2, List.lookup, h3, ih]

theorem lookup_hAssign (h : Header) (k k2 : String) (vs : List String) :
    (hAssign h k vs).lookup k2 = if k2 = k then some vs else h.lookup k2 := by
  by_cases hk : k2 = k
  · subst hk; simp [hAssign, List.lookup]
  · have h3 : (k2 == k) = false := beq_eq_false_iff_ne.mpr hk
    simp [hAssign, List.lookup, h3, lookup_filter_ne _ _ _ hk, hk]

theorem lookup_hSet_self (h : Header) (k v : String) :
    (hSet h k v).lookup k = some [v] := by
  simp [hSet, lookup_hAssign]

theorem lookup_hSet_ne (h : Header) (k k2 v : String) (hne : k2 ≠ k) :
    (hSet h k v).lookup k2 = h.lookup k2 := by
  simp [hSet, lookup_hAssign, hne]

theorem fh_allowOrigin (res : ResourceDefinition) (origin : String) (dest : Header) :
    (FillHeaders res origin dest).lookup acAllowOrigin = some [origin] := by
  by_cases hC : res.Credentials = true <;> by_cases hM : 0 < res.MaxAge <;>
    by_cases hE : 0 < res.Expose.length <;>
    simp [FillHeaders, hSet, lookup_hAssign, hC, hM, hE,
      acAllowHeaders, acAllowOrigin, acAllowCredentials, acMaxAge, acExposeHeaders, acAllowMethods]

theorem fh_allowHeaders (res : ResourceDefinition) (origin : String) (dest : Header) :
    (FillHeaders res origin dest).lookup acAllowHeaders = dest.lookup acAllowHeaders := by
  by_cases hC : res.Credentials = true <;> by_cases hM : 0 < res.MaxAge <;>
    by_cases hE : 0 < res.Expose.length <;>
    simp [FillHeaders, hSet, lookup_hAssign, hC, hM, hE,
      acAllowHeaders, acAllowOrigin, acAllowCredentials, acMaxAge, acExposeHeaders, acAllowMethods]

theorem fh_exposeHeaders (res : ResourceDefinition) (origin : String) (dest : Header) :
    (FillHeaders res origin dest).lookup acExposeHeaders =
      (if res.Expose = [] then dest.lookup acExposeHeaders
       else some [String.intercalate ", " res.Expose]) := by
  by_cases hC : res.Credentials = true <;> by_cases hM : 0 < res.MaxAge <;>
    rcases hE : res.Expose with _ | ⟨e, es⟩ <;>
    simp [FillHeaders, hSet, lookup_hAssign, hC, hM, hE,
      acAllowHeaders, acAllowOrigin, acAllowCredentials, acMaxAge, acExposeHeaders, acAllowMethods]

theorem fh_maxAge (res : ResourceDefinition) (origin : String) (dest : Header) :
    (FillHeaders res origin dest).lookup acMaxAge =
      (if 0 < res.MaxAge then some [toString res.MaxAge]
       else dest.lookup acMaxAge) := by
  by_cases hC : res.Credentials = true <;> by_cases hM : 0 < res.MaxAge <;>
    by_cases hE : 0 < res.Expose.length <;>
    simp [FillHeaders, hSet, lookup_hAssign, hC, hM, hE,
      acAllowHeaders, acAllowOrigin, acAllowCredentials, acMaxAge, acExposeHeaders, acAllowMethods]

theorem fh_allowCredentials (res : ResourceDefinition) (origin : String) (dest : Header) :
    (FillHeaders res origin dest).lookup acAllowCredentials =
      (if res.Credentials then some ["true"]
       else dest.lookup acAllowCredentials) := by
  by_cases hC : res.Credentials = true <;> by_cases hM : 0 < res.MaxAge <;>
    by_cases hE : 0 < res.Expose.length <;>
    simp [FillHeaders, hSet, lookup_hAssign, hC, hM, hE,
      acAllowHeaders, acAllowOrigin, acAllowCredentials, acMaxAge, acExposeHeaders, acAllowMethods]

theorem fh_allowMethods (res : ResourceDefinition) (origin : String) (dest : Header) :
    (FillHeaders res origin dest).lookup acAllowMethods =
      some [String.intercalate ", " res.Methods] := by
  by_cases hC : res.Credentials = true <;> by_cases hM : 0 < res.MaxAge <;>
    by_cases hE : 0 < res.Expose.length <;>
    simp [FillHeaders, hSet, lookup_hAssign, hC, hM, hE,
      acAllowHeaders, acAllowOrigin, acAllowCredentials, acMaxAge, acExposeHeaders, acAllowMethods]
theorem corsOkLoop_from_true (allowed : List String) (t : List String) :
    corsOkLoop allowed t true = true := by
  induction t with
  | nil => rfl
  | cons h t ih => simp [corsOkLoop, ih]

theorem corsOkLoop_cons (allowed : List String) (a : String) (t : List String) :
    corsOkLoop allowed (a :: t) false =
      allowed.any (fun h2 => h2 == "*" || a == h2) := by
  rcases hx : allowed.any (fun h2 => h2 == "*" || a == h2) <;>
    simp [corsOkLoop, hx, corsOkLoop_from_true]

/-- A parsed JWT token; only validity is observed by the middleware, the
claims play no role in it. -/
structure JWTToken where
  Valid : Bool
  deriving DecidableEq

/-- The fields of the jwt.Specification that the middleware and GetToken
read.  ValidationFunc together with jwt.Parse of the external token
library is abstracted into the parse parameter of GetToken below; the
token-generation fields (TTL, issuer, signing method and keys, common
claims) are not read by the middleware. -/
structure JWTSpecification where
  TokenHeader : String
  TokenParam : String
  AllowParam : Bool
  AuthOptions : Bool

/-- The part of an incoming http.Request that the JWT middleware reads:
the method, the header map and the parsed query string (url.Values has the
same shape as a header map). -/
structure JWTRequest where
  method : String
  header : Header
  query : Header

/-- jwt.GetToken: pulls the raw token from the configured header (which
must hold exactly two space-separated words, the first being bearer up to
case) or, when absent and AllowParam is set, from the query string, and
hands it to the token library.  parse stands for jwt.Parse applied to the
wrapped ValidationFunc of the specification. -/
def GetToken (parse : String → Except String JWTToken) (req : JWTRequest)
    (spec : JWTSpecification) : Except String JWTToken :=
  let header := hGetFirst req.header spec.TokenHeader
  let step : Except String (Bool × String) :=
    if header != "" then
      match splitOnChar ' ' header with
      | [p0, p1] =>
        if strToLower p0 != "bearer" then Except.error "Malformed token header"
        else Except.ok (true, p1)
      | _ => Except.error "Malformed token header"
    else Except.ok (false, "")
  match step with
  | Except.error e => Except.error e
  | Except.ok (found, tok0) =>
    let tok := if !found && spec.AllowParam then hGetFirst req.query spec.TokenParam else tok0
    if tok == "" then Except.error "no token"
    else parse tok

/-- Outcome of one request through the JWT middleware: either the next
handler runs (carrying the validated token in the context when one was
extracted) or the middleware itself responds. -/
inductive JWTOutcome where
  | next (token : Option JWTToken) : JWTOutcome
  | respond (status : Nat) (body : String) : JWTOutcome
  deriving DecidableEq

/-- jwt.Middleware: applies the header and param defaults to the
specification, lets OPTIONS requests through untouched unless AuthOptions
is set, and otherwise extracts and validates the token, answering 401
(body Unauthorized, the net/http status text, or Invalid Token) when that
fails. -/
def jwtMiddleware (parse : String → Except String JWTToken)
    (spec : JWTSpecification) (req : JWTRequest) : JWTOutcome :=
  let tokenHeader := if spec.TokenHeader == "" then "Authorization" else spec.TokenHeader
  let tokenParam := if spec.TokenParam == "" then "token" else spec.TokenParam
  let spec2 : JWTSpecification := ⟨tokenHeader, tokenParam, spec.AllowParam, spec.AuthOptions⟩
  if !spec2.AuthOptions && req.method == "OPTIONS" then JWTOutcome.next none
  else
    match GetToken parse req spec2 with
    | Except.error _ => JWTOutcome.respond 401 "Unauthorized"
    | Except.ok token =>
      if !token.Valid then JWTOutcome.respond 401 "Invalid Token"
      else JWTOutcome.next (some token)

/-- Outcome of one request through the RequireHeader middleware. -/
inductive RHOutcome where
  | next : RHOutcome
  | respond (status : Nat) (body : String) : RHOutcome
  deriving DecidableEq

/-- The part of an incoming request that RequireHeader reads. -/
structure RHRequest where
  path : String
  header : Header

/-- middleware.RequireHeader: when the path is in scope (no path pattern,
or the pattern matches), the named header must be non-empty and, when a
value pattern is configured, match it; otherwise the middleware responds
with the failure status and the standard status text as body.  The two
regular expressions are embedded as their MatchString functions, and
statusText stands for net/http StatusText. -/
def RequireHeader (statusText : Nat → String)
    (pathPattern : Option (String → Bool))
    (requiredHeaderName : String)
    (requiredHeaderValue : Option (String → Bool))
    (failureStatus : Nat) (req : RHRequest) : RHOutcome :=
  let inScope :=
    match pathPattern with
    | none => true
    | some p => p req.path
  if inScope then
    let headerValue := hGetFirst req.header requiredHeaderName
    let matched :=
      if headerValue.length > 0 then
        match requiredHeaderValue with
        | none => true
        | some rx => rx headerValue
      else false
    if matched then RHOutcome.next
    else RHOutcome.respond failureStatus (statusText failureStatus)
  else RHOutcome.next
/-- A non-empty string has positive length. -/
theorem string_length_pos_of_ne (s : String) (h : s ≠ "") : 0 < s.length := by
  rcases s with ⟨l⟩
  cases l
  · simp at h
  · simp [String.length]

/-- Following the specification wording for origin matching: exact
equality, or rule origin the wildcard, or pattern match when the rule has
a pattern instead of an exact origin. -/
def claimOriginMatch (res : ResourceDefinition) (origin : String) : Bool :=
  if res.Origin != "" then res.Origin == origin || res.Origin == "*"
  else res.OriginRegexp origin

/-- Following the specification wording for path matching: prefix match
when the prefix flag is set, exact equality otherwise. -/
def claimPathMatch (res : ResourceDefinition) (path : String) : Bool :=
  if res.IsPathPref then hasPrefixStr path res.Path else path == res.Path

/-- Following the specification wording for the guard: the optional guard
predicate, when present, must return true. -/
def claimGuardOK (res : ResourceDefinition) (ctx : CORSRequest) : Bool :=
  match res.Check with
  | none => true
  | some c => c ctx

/-- Following the specification wording: a rule matches a request when its
origin matches, its path matches and its guard accepts. -/
def claimRuleMatches (ctx : CORSRequest) (origin : String) (res : ResourceDefinition) : Bool :=
  claimOriginMatch res origin && claimPathMatch res ctx.path && claimGuardOK res ctx

/-- C7: RequestResource returns the first rule in configured order whose
origin matches (exact equality, wildcard, or pattern when the rule has a
pattern instead of an exact origin), whose path matches (prefix when the
prefix flag is set, exact equality otherwise) and whose guard, when
present, returns true; it returns none when no rule qualifies.  This is
exactly first-match search, List.find?. -/
theorem c7_requestResource_first_match (v : Specification) (ctx : CORSRequest) (origin : String) :
    RequestResource v ctx origin = v.find? (claimRuleMatches ctx origin) := by
  induction v with
  | nil => rfl
  | cons res rest ih =>
    have hom : claimOriginMatch res origin = res.OriginAllowed origin := by
      simp [claimOriginMatch, ResourceDefinition.OriginAllowed, Bool.or_comm]
    have hpm : ∀ pth, claimPathMatch res pth = res.PathMatches pth := fun _ => rfl
    rcases hoa : res.OriginAllowed origin
    · simp [RequestResource, List.find?_cons, claimRuleMatches, hom, hoa, ih]
    · rcases hpa : res.PathMatches ctx.path
      · simp [RequestResource, List.find?_cons, claimRuleMatches, hom, hoa, hpm, hpa, ih]
      · rcases hc : res.Check with _ | c
        · simp [RequestResource, List.find?_cons, claimRuleMatches, claimGuardOK, hom, hoa,
            hpm, hpa, hc]
        · rcases hcc : c ctx <;>
            simp [RequestResource, List.find?_cons, claimRuleMatches, claimGuardOK, hom, hoa,
              hpm, hpa, hc, hcc, ih]

/-- C8: FillHeaders leaves the expose-headers entry untouched when the
rule exposes nothing, writes the max-age entry (the decimal string of the
value) exactly when the max age is strictly positive, and writes the
allow-credentials entry, always with the literal true, exactly when the
rule allows credentials -- so it is never written as false. -/
theorem c8_fillHeaders_conditional_headers (res : ResourceDefinition) (origin : String)
    (dest : Header) :
    (FillHeaders res origin dest).lookup acExposeHeaders =
        (if res.Expose = [] then dest.lookup acExposeHeaders
         else some [String.intercalate ", " res.Expose])
      ∧ (FillHeaders res origin dest).lookup acMaxAge =
        (if 0 < res.MaxAge then some [toString res.MaxAge] else dest.lookup acMaxAge)
      ∧ (FillHeaders res origin dest).lookup acAllowCredentials =
        (if res.Credentials then some ["true"] else dest.lookup acAllowCredentials) :=
  ⟨fh_exposeHeaders res origin dest, fh_maxAge res origin dest, fh_allowCredentials res origin dest⟩

/-- C9: when AuthOptions is false, an OPTIONS request goes straight to the
next handler with no token in the context, whatever the token library
would say -- in particular the middleware can never answer 401 for it. -/
theorem c9_jwt_options_bypass (parse : String → Except String JWTToken)
    (spec : JWTSpecification) (req : JWTRequest)
    (h1 : spec.AuthOptions = false) (h2 : req.method = "OPTIONS") :
    jwtMiddleware parse spec req = JWTOutcome.next none := by
  simp [jwtMiddleware, h1, h2]

theorem c9_witness :
    jwtMiddleware (fun _ => Except.error "boom") ⟨"", "", false, false⟩
      ⟨"OPTIONS", [("Authorization", ["Bearer bad"])], []⟩ = JWTOutcome.next none :=
  c9_jwt_options_bypass (fun _ => Except.error "boom") ⟨"", "", false, false⟩
    ⟨"OPTIONS", [("Authorization", ["Bearer bad"])], []⟩ rfl rfl

theorem requireHeader_eq_ite (statusText : Nat → String)
    (pathPattern : Option (String → Bool)) (requiredHeaderName : String)
    (requiredHeaderValue : Option (String → Bool)) (failureStatus : Nat)
    (req : RHRequest) :
    RequireHeader statusText pathPattern requiredHeaderName requiredHeaderValue failureStatus req
      = (if ((match pathPattern with
              | none => true
              | some p => p req.path)
            && ((hGetFirst req.header requiredHeaderName == "")
              || (match requiredHeaderValue with
                  | none => false
                  | some rx => !rx (hGetFirst req.header requiredHeaderName)))) = true
         then RHOutcome.respond failureStatus (statusText failureStatus)
         else RHOutcome.next) := by
  rcases hsc : (match pathPattern with
    | none => true
    | some p => p req.path)
  · simp [RequireHeader, hsc]
  · rcases hv0 : hGetFirst req.header requiredHeaderName == ""
    · have hne : hGetFirst req.header requiredHeaderName ≠ "" := by
        exact fun hx => by simp [hx] at hv0
      have hlen : 0 < (hGetFirst req.header requiredHeaderName).length :=
        string_length_pos_of_ne _ hne
      rcases requiredHeaderValue with _ | rx
      · simp [RequireHeader, hsc, hv0, hlen]
      · rcases hrx : rx (hGetFirst req.header requiredHeaderName) <;>
          simp [RequireHeader, hsc, hv0, hlen, hrx]
    · have he : hGetFirst req.header requiredHeaderName = "" := by
        have := hv0; simpa using this
      have hlen : (hGetFirst req.header requiredHeaderName).length = 0 := by
        rw [he]; rfl
      simp [RequireHeader, hsc, hv0, hlen]

/-- C10: RequireHeader responds with the failure status (body the standard
status text) exactly when the path is in scope (no path pattern, or the
pattern matches) and the header check fails (value empty, or a value
pattern is configured and does not match); in every other case it invokes
the next handler. -/
theorem c10_requireHeader_response_iff (statusText : Nat → String)
    (pathPattern : Option (String → Bool)) (requiredHeaderName : String)
    (requiredHeaderValue : Option (String → Bool)) (failureStatus : Nat)
    (req : RHRequest) :
    (RequireHeader statusText pathPattern requiredHeaderName requiredHeaderValue failureStatus req
        = RHOutcome.respond failureStatus (statusText failureStatus)
      ↔ ((match pathPattern with
          | none => true
          | some p => p req.path)
        && ((hGetFirst req.header requiredHeaderName == "")
          || (match requiredHeaderValue with
              | none => false
              | some rx => !rx (hGetFirst req.header requiredHeaderName)))) = true)
    ∧ (RequireHeader statusText pathPattern requiredHeaderName requiredHeaderValue failureStatus req
        = RHOutcome.next
      ↔ ((match pathPattern with
          | none => true
          | some p => p req.path)
        && ((hGetFirst req.header requiredHeaderName == "")
          || (match requiredHeaderValue with
              | none => false
              | some rx => !rx (hGetFirst req.header requiredHeaderName)))) = false) := by
  rcases hc : ((match pathPattern with
      | none => true
      | some p => p req.path)
    && ((hGetFirst req.header requiredHeaderName == "")
      || (match requiredHeaderValue with
          | none => false
          | some rx => !rx (hGetFirst req.header requiredHeaderName)))) <;>
    simp [requireHeader_eq_ite, hc]

/-- C6: a request carrying neither Origin nor X-Origin leaves every
response header exactly as it was: the middleware never sets any
Access-Control response header (nor any other) on such a request.  Stated
for every header name k, which covers in particular every name beginning
with Access-Control-. -/
theorem c6_no_origin_no_cors_headers (spec : Specification) (req : CORSRequest) (rw : Header)
    (h1 : hGetFirst req.header "Origin" = "")
    (h2 : hGetFirst req.header "X-Origin" = "")
    (k : String) :
    ((corsMiddleware spec req rw).1).lookup k = rw.lookup k := by
  have hb : (effOrigin req.header != "") = false := by simp [effOrigin, h1, h2]
  simp [corsMiddleware, hb]

theorem c6_witness :
    ((corsMiddleware [] ⟨"GET", "/", []⟩ [("X-Test", ["y"])]).1).lookup acAllowOrigin
      = ([("X-Test", ["y"])] : Header).lookup acAllowOrigin :=
  c6_no_origin_no_cors_headers [] ⟨"GET", "/", []⟩ [("X-Test", ["y"])] rfl rfl
    acAllowOrigin

def c1Rule : ResourceDefinition :=
  ⟨"http://authorized.com", fun _ => false, "/", false, ["foo"], ["GET"], [], 0, false, [], none⟩

def c1Req : CORSRequest :=
  ⟨"OPTIONS", "/", [("Origin", ["http://authorized.com"]),
    ("Access-Control-Request-Method", ["GET"]),
    ("Access-Control-Request-Headers", ["foo,bar"])]⟩

theorem c1_counterexample :
    ((corsMiddleware [c1Rule] c1Req []).1).lookup acAllowHeaders = some ["foo, bar"]
      ∧ c1Rule.Headers = ["foo"] := by
  constructor
  · decide
  · rfl

def c2Rule : ResourceDefinition :=
  ⟨"http://authorized.com", fun _ => false, "/", false, [], ["POST"], [], 0, false, [], none⟩

def c2Req : CORSRequest :=
  ⟨"OPTIONS", "/", [("Origin", ["http://authorized.com"]),
    ("Access-Control-Request-Method", ["GET"])]⟩

theorem c2_counterexample :
    ((corsMiddleware [c2Rule] c2Req []).1).lookup acAllowMethods = some ["POST"]
      ∧ ((corsMiddleware [c2Rule] c2Req []).1).lookup acAllowOrigin
        = some ["http://authorized.com"] := by
  decide

def c3Rule : ResourceDefinition :=
  ⟨"*", fun _ => false, "/", false, [], ["GET"], [], 0, false, [], none⟩

def c3Req : CORSRequest := ⟨"GET", "/", [("Origin", ["http://a.example"])]⟩

theorem c3_vary_on_request_not_response :
    ((corsMiddleware [c3Rule] c3Req []).1).lookup "Vary" = none
      ∧ ((corsMiddleware [c3Rule] c3Req []).2).lookup "Vary" = some ["Origin"] := by
  decide

def c4Rule : ResourceDefinition :=
  ⟨"*", fun _ => false, "/x", false, [], ["GET"], [], 0, false, ["Accept-Encoding"], none⟩

def c4Req : CORSRequest := ⟨"GET", "/x", [("Origin", ["http://b.example"])]⟩

theorem c4_request_headers_mutated :
    (corsMiddleware [c4Rule] c4Req []).2 ≠ c4Req.header
      ∧ ((corsMiddleware [c4Rule] c4Req []).2).lookup "Vary" = some ["Accept-Encoding"] := by
  decide

def c5Rule : ResourceDefinition :=
  ⟨"*", fun _ => false, "/", false, [], ["GET"], [], 0, false, [], none⟩

def c5Req : CORSRequest := ⟨"GET", "/", [("Origin", ["http://a.example"])]⟩

theorem c5_counterexample :
    ((corsMiddleware [c5Rule] c5Req []).1).lookup acAllowOrigin = some ["http://a.example"]
      ∧ ((corsMiddleware [c5Rule] c5Req []).1).lookup acAllowOrigin ≠ some ["*"] := by
  decide

theorem corsMiddleware_matched_eq (spec : Specification) (req : CORSRequest) (rw : Header)
    (res : ResourceDefinition)
    (horigin : effOrigin req.header ≠ "")
    (hres : RequestResource spec req (effOrigin req.header) = some res) :
    (corsMiddleware spec req rw).1 =
      (if ((req.method == "OPTIONS")
            && (strToUpper (hGetFirst req.header acRequestMethod) != "")
            && res.Methods.contains (strToUpper (hGetFirst req.header acRequestMethod))
            && !((splitTrimAll (hIndex req.header acRequestHeaders)).length > 0
                 && !(corsOkLoop res.Headers (splitTrimAll (hIndex req.header acRequestHeaders)) false)))
       then FillHeaders res
              (if res.Origin == "*" && !res.Credentials then "*" else effOrigin req.header)
              (hSet rw acAllowHeaders
                (String.intercalate ", " (splitTrimAll (hIndex req.header acRequestHeaders))))
       else FillHeaders res (effOrigin req.header) rw) := by
  have hb : (effOrigin req.header != "") = true := bne_iff_ne.mpr horigin
  rcases h1 : req.method == "OPTIONS" <;>
    rcases h2 : strToUpper (hGetFirst req.header acRequestMethod) == "" <;>
    rcases h3 : res.Methods.contains (strToUpper (hGetFirst req.header acRequestMethod)) <;>
    rcases h4 : ((splitTrimAll (hIndex req.header acRequestHeaders)).length > 0
      && !(corsOkLoop res.Headers (splitTrimAll (hIndex req.header acRequestHeaders)) false)) <;>
  first
  | (have h3m : strToUpper (hGetFirst req.header acRequestMethod) ∈ res.Methods := by
      simpa using h3
     simp [corsMiddleware, bne, hb, horigin, hres, h1, h2, h3, h3m, h4])
  | (have h3m : strToUpper (hGetFirst req.header acRequestMethod) ∉ res.Methods := by
      simpa using h3
     simp [corsMiddleware, bne, hb, horigin, hres, h1, h2, h3, h3m, h4])

/-- C2 amended: a preflight whose requested method is not in the matched
rule's methods skips the preflight-specific handling (no allow-headers
write, no wildcard-origin substitution, the request still proceeds to the
next handler), but the matched rule's CORS headers are still filled as for
a simple request, the allow-origin echoing the request origin. -/
theorem c2_amended_failed_preflight_fills_rule_headers
    (spec : Specification) (req : CORSRequest) (rw : Header) (res : ResourceDefinition)
    (horigin : effOrigin req.header ≠ "")
    (hres : RequestResource spec req (effOrigin req.header) = some res)
    (hmeth : req.method = "OPTIONS")
    (hacm : strToUpper (hGetFirst req.header acRequestMethod) ≠ "")
    (hnotin : res.Methods.contains (strToUpper (hGetFirst req.header acRequestMethod)) = false) :
    (corsMiddleware spec req rw).1 = FillHeaders res (effOrigin req.header) rw := by
  rw [corsMiddleware_matched_eq spec req rw res horigin hres]
  have hm : strToUpper (hGetFirst req.header acRequestMethod) ∉ res.Methods := by
    simpa using hnotin
  simp [hnotin, hm]

theorem c2_amended_witness :
    (corsMiddleware [c2Rule] c2Req []).1 = FillHeaders c2Rule (effOrigin c2Req.header) [] :=
  c2_amended_failed_preflight_fills_rule_headers [c2Rule] c2Req [] c2Rule
    (by decide) rfl rfl (by decide) (by decide)

/-- C5 amended, full characterization of the emitted allow-origin.  For
every request with an origin for which a rule matched, the written
allow-origin value is the wildcard exactly when the preflight was accepted
(method OPTIONS, requested method uppercased, non-empty and allowed,
requested headers allowed) and the rule's origin is the wildcard with
credentials off; in every other such case -- simple requests, and
preflights failing the method or header checks, and in particular
whenever the rule allows credentials -- it is the literal request origin.
For a request with no origin (where a rule can match only by plain path
lookup) no allow-origin is written at all: the response entry is left as
it was. -/
theorem c5_amended_allow_origin (spec : Specification) (req : CORSRequest) (rw : Header)
    (res : ResourceDefinition) :
    (effOrigin req.header ≠ "" →
     RequestResource spec req (effOrigin req.header) = some res →
     ((corsMiddleware spec req rw).1).lookup acAllowOrigin =
       some [if ((req.method == "OPTIONS")
                  && (strToUpper (hGetFirst req.header acRequestMethod) != "")
                  && res.Methods.contains (strToUpper (hGetFirst req.header acRequestMethod))
                  && !((splitTrimAll (hIndex req.header acRequestHeaders)).length > 0
                       && !(corsOkLoop res.Headers
                              (splitTrimAll (hIndex req.header acRequestHeaders)) false)))
                && (res.Origin == "*" && !res.Credentials)
             then "*" else effOrigin req.header])
    ∧ (effOrigin req.header = "" →
       ((corsMiddleware spec req rw).1).lookup acAllowOrigin = rw.lookup acAllowOrigin) := by
  constructor
  · intro horigin hres
    rw [corsMiddleware_matched_eq spec req rw res horigin hres]
    rcases hA : ((req.method == "OPTIONS")
        && (strToUpper (hGetFirst req.header acRequestMethod) != "")
        && res.Methods.contains (strToUpper (hGetFirst req.header acRequestMethod))
        && !((splitTrimAll (hIndex req.header acRequestHeaders)).length > 0
             && !(corsOkLoop res.Headers
                    (splitTrimAll (hIndex req.header acRequestHeaders)) false))) <;>
      simp [fh_allowOrigin]
  · intro ho
    have hb : (effOrigin req.header != "") = false := by simp [ho]
    simp [corsMiddleware, hb]

/-- Test vector: a rule allowing credentials, matched by exact origin. -/
def c5CredRule : ResourceDefinition :=
  ⟨"http://c.example", fun _ => false, "/", false, [], ["GET"], [], 0, true, [], none⟩

/-- Test vector: a plain GET request with an origin matching c5CredRule. -/
def c5CredReq : CORSRequest := ⟨"GET", "/", [("Origin", ["http://c.example"])]⟩

/-- Test vector: an accepted preflight against the wildcard rule. -/
def c5WildReq : CORSRequest :=
  ⟨"OPTIONS", "/", [("Origin", ["http://d.example"]),
    ("Access-Control-Request-Method", ["GET"])]⟩

/-- Test vector: a request without Origin or X-Origin whose path matches
the wildcard rule. -/
def c5NoOriginReq : CORSRequest := ⟨"GET", "/", []⟩

theorem c5_amended_witness :
    ((corsMiddleware [c5CredRule] c5CredReq []).1).lookup acAllowOrigin
        = some [effOrigin c5CredReq.header]
      ∧ ((corsMiddleware [c5Rule] c5WildReq []).1).lookup acAllowOrigin = some ["*"]
      ∧ ((corsMiddleware [c5Rule] c5NoOriginReq []).1).lookup acAllowOrigin
        = ([] : Header).lookup acAllowOrigin :=
  ⟨Eq.trans ((c5_amended_allow_origin [c5CredRule] c5CredReq [] c5CredRule).1
      (by decide) rfl) (by decide),
   Eq.trans ((c5_amended_allow_origin [c5Rule] c5WildReq [] c5Rule).1
      (by decide) rfl) (by decide),
   (c5_amended_allow_origin [c5Rule] c5NoOriginReq [] c5Rule).2 rfl⟩

/-- C1 amended: on a preflight that matched a rule and passed the method
check, the requested headers are the comma-split, whitespace-trimmed
entries of Access-Control-Request-Headers, and the preflight is accepted
(echoing them, comma-space-joined, in allow-headers) precisely when the
list is empty or its first entry equals an allowed header exactly
(case-sensitively) or the allowed headers contain the wildcard; entries
after the first are not effectively checked.  When rejected, the
preflight-specific handling is abandoned but the matched rule's headers
are still filled as for a simple request. -/
theorem c1_amended_first_requested_header (spec : Specification) (req : CORSRequest)
    (rw : Header) (res : ResourceDefinition) (hs : List String)
    (horigin : effOrigin req.header ≠ "")
    (hres : RequestResource spec req (effOrigin req.header) = some res)
    (hmeth : req.method = "OPTIONS")
    (hacm : strToUpper (hGetFirst req.header acRequestMethod) ≠ "")
    (hcont : res.Methods.contains (strToUpper (hGetFirst req.header acRequestMethod)) = true)
    (hhs : hs = splitTrimAll (hIndex req.header acRequestHeaders))
    (hrw : rw.lookup acAllowHeaders = none) :
    (((corsMiddleware spec req rw).1).lookup acAllowHeaders
        = some [String.intercalate ", " hs])
      ↔ (hs = [] ∨ res.Headers.any (fun h2 => h2 == "*" || hs.headD "" == h2) = true) := by
  subst hhs
  rw [corsMiddleware_matched_eq spec req rw res horigin hres]
  have hm1 : (req.method == "OPTIONS") = true := by simp [hmeth]
  have hm2 : (strToUpper (hGetFirst req.header acRequestMethod) == "") = false :=
    beq_eq_false_iff_ne.mpr hacm
  have hm3 : strToUpper (hGetFirst req.header acRequestMethod) ∈ res.Methods := by
    simpa using hcont
  rcases hsv : splitTrimAll (hIndex req.header acRequestHeaders) with _ | ⟨a, t⟩
  · simp [hsv, hm1, hm2, hm3, bne, fh_allowHeaders, lookup_hSet_self]
  · rcases hany : res.Headers.any (fun h2 => h2 == "*" || a == h2)
    · have hloop : corsOkLoop res.Headers (a :: t) false = false := by
        rw [corsOkLoop_cons, hany]
      simp [hsv, hm1, hm2, hm3, bne, hloop, fh_allowHeaders, hrw, hany]
    · have hloop : corsOkLoop res.Headers (a :: t) false = true := by
        rw [corsOkLoop_cons, hany]
      simp [hsv, hm1, hm2, hm3, bne, hloop, fh_allowHeaders, lookup_hSet_self, hany]

/-- Test vector: a preflight requesting only the allowed header foo. -/
def c1AReq : CORSRequest :=
  ⟨"OPTIONS", "/", [("Origin", ["http://authorized.com"]),
    ("Access-Control-Request-Method", ["GET"]),
    ("Access-Control-Request-Headers", ["foo"])]⟩

theorem c1_amended_witness :
    (((corsMiddleware [c1Rule] c1AReq []).1).lookup acAllowHeaders
        = some [String.intercalate ", " ["foo"]])
      ↔ ((["foo"] : List String) = []
          ∨ c1Rule.Headers.any
              (fun h2 => h2 == "*" || (["foo"] : List String).headD "" == h2) = true) :=
  c1_amended_first_requested_header [c1Rule] c1AReq [] c1Rule ["foo"]
    (by decide) rfl rfl (by decide) (by decide) (by decide) rfl
